import Mathlib

/-!
Verification of `processCSV.js`: a two-stage AWS pipeline made of an
ingestion Lambda (S3 upload event → CSV parse → chunked SQS FIFO batch
sends) and a consumer Lambda (SQS delivery → SSM-resolved MySQL config →
transactional upsert, deleting each message before commit).

External collaborators (S3, SQS, SSM, MySQL, the `csv-parser` library and
the JavaScript clock `Date.now()`) are modelled as explicit parameters;
the machine effects of each function are returned as explicit values and
logs, so every definition is executable.
-/

namespace ProcessCSV

/-- A parsed CSV row: an ordered mapping of column name to string value
(JavaScript objects preserve insertion order; `csv-parser` performs no type
coercion, so all values are strings). -/
abbrev Row := List (String × String)

/-- A Lambda response value `{statusCode, body}`. -/
structure Response where
  statusCode : Nat
  body : String
  deriving DecidableEq

/-- Escaping `JSON.stringify` applies inside string literals, for the
characters this pipeline can produce (backslash and double quote; the
control-character escapes are modelled the same way and never exercised
here). -/
def jsonEscape (s : String) : String :=
  s.data.foldl (fun acc c =>
    if c = '\\' then acc ++ "\\\\"
    else if c = '"' then acc ++ "\\\""
    else acc.push c) ""

/-- A JSON string literal. -/
def jsonQuote (s : String) : String :=
  "\"" ++ jsonEscape s ++ "\""

/-- A JSON object built from already-serialized field values, in insertion
order, with the spacing `JSON.stringify` uses (none). -/
def jsonObj (fields : List (String × String)) : String :=
  "\x7b" ++ String.intercalate "," (fields.map fun kv => jsonQuote kv.1 ++ ":" ++ kv.2) ++ "\x7d"

/-- JSON serialization of a `Row`. -/
def jsonOfRow (row : Row) : String :=
  jsonObj (row.map fun kv => (kv.1, jsonQuote kv.2))

/-- `JSON.stringify({ data: row, env })` at line 35, where `env` is the
already-defaulted string parameter of `sendChunkToSQS`. -/
def messageBody (row : Row) (env : String) : String :=
  jsonObj [("data", jsonOfRow row), ("env", jsonQuote env)]

/-- The body predicted for an envelope whose `env` is the given *optional*
value under `JSON.stringify` semantics, which omits a field holding
`undefined`. Stated from the spec's words for comparison with what the code
sends; the code itself never serializes an `undefined` `env` because of the
default parameter on `sendChunkToSQS`. -/
def claimedBody (row : Row) (env : Option String) : String :=
  match env with
  | some e => jsonObj [("data", jsonOfRow row), ("env", jsonQuote e)]
  | none => jsonObj [("data", jsonOfRow row)]

/-- One entry of an SQS `SendMessageBatch` call, as built at lines 33–38. -/
structure SQSEntry where
  Id : String
  MessageBody : String
  MessageGroupId : String
  MessageDeduplicationId : String
  deriving DecidableEq

/-- JavaScript `row.id || index` (line 37): the row's `id` value unless it
is missing or falsy (for CSV string values, the empty string), in which
case the entry's position in the chunk. -/
def idOrIndex (row : Row) (index : Nat) : String :=
  match row.lookup "id" with
  | some v => if v = "" then Nat.repr index else v
  | none => Nat.repr index

/-- `CHUNK_SIZE` (line 12). -/
def CHUNK_SIZE : Nat := 10

/-- The entries of the single `SendMessageBatchCommand` issued by
`sendChunkToSQS(chunk, env)` (lines 32–43). The JavaScript default
parameter `env = "dev"` applies exactly when the caller passes
`undefined`, hence the `Option.getD`. `Date.now()` is modelled as the
clock value `now`, constant across the template literals of one call. -/
def sendChunkToSQS (chunk : List Row) (envArg : Option String) (now : Nat) : List SQSEntry :=
  let env := envArg.getD "dev"
  chunk.mapIdx fun index row =>
    { Id := "row-" ++ Nat.repr index ++ "-" ++ Nat.repr now
      MessageBody := messageBody row env
      MessageGroupId := "CSVChunkGroup"
      MessageDeduplicationId := "dedup-" ++ idOrIndex row index ++ "-" ++ Nat.repr now }

/-- The row-accumulation loop of the ingestion handler (lines 82–98): each
parsed row is appended to a buffer; whenever the buffer reaches
`CHUNK_SIZE` rows it is flushed as one batch and cleared, and a final
non-empty partial buffer is flushed after the stream ends. -/
def chunkLoop : List Row → List Row → List (List Row)
  | [], buf => if buf.isEmpty then [] else [buf]
  | row :: rest, buf =>
    let buf2 := buf ++ [row]
    if buf2.length = CHUNK_SIZE then buf2 :: chunkLoop rest []
    else chunkLoop rest buf2

/-- JavaScript `String.prototype.split` with a single-character separator
(the only form this program uses: `"-"`, `","` and line splitting), on the
character list: splitting the empty text yields one empty token, and each
separator occurrence ends the current token. -/
def splitCharList (sep : Char) : List Char → List (List Char)
  | [] => [[]]
  | c :: cs =>
    let rest := splitCharList sep cs
    if c = sep then [] :: rest
    else
      match rest with
      | [] => [[c]]
      | r :: rs => (c :: r) :: rs

/-- JavaScript `s.split(sep)` for a single-character `sep`. -/
def splitOnChar (sep : Char) (s : String) : List String :=
  (splitCharList sep s.data).map fun l => ⟨l⟩

/-- Line 69, `bucketName.split("-")[1]`: `undefined` (here `none`) when the
bucket name has fewer than two `-`-separated tokens. -/
def deriveEnv (bucketName : String) : Option String :=
  (splitOnChar '-' bucketName)[1]?

/-- Models the external `csv-parser` stream of line 80 (spec §4.1 step 3):
the first line of the file is the header; every later non-empty line yields
one `Row` pairing the header's comma-separated names with the line's
values, preserving file order. -/
def parseCSV (content : String) : List Row :=
  match splitOnChar '\n' content with
  | [] => []
  | header :: dataLines =>
    let names := splitOnChar ',' header
    (dataLines.filter fun line => line ≠ "").map fun line =>
      names.zip (splitOnChar ',' line)

/-- The `s3` part of one record of an S3 upload event. -/
structure S3EventRecord where
  bucketName : String
  objectKey : String
  deriving DecidableEq

/-- An S3 upload event. -/
structure S3Event where
  Records : List S3EventRecord
  deriving DecidableEq

instance {ε α : Type} [DecidableEq ε] [DecidableEq α] : DecidableEq (Except ε α) := fun x y =>
  match x, y with
  | .ok a, .ok b =>
    if h : a = b then isTrue (by rw [h]) else isFalse (by intro he; injection he; contradiction)
  | .error a, .error b =>
    if h : a = b then isTrue (by rw [h]) else isFalse (by intro he; injection he; contradiction)
  | .ok _, .error _ => isFalse (by intro he; exact Except.noConfusion he)
  | .error _, .ok _ => isFalse (by intro he; exact Except.noConfusion he)

/-- The settled outcome of one ingestion invocation: `result` is the
handler's settled value (`.error` models an uncaught exception rejecting
the invocation, `.ok` a returned response), and `sent` lists the
`SendMessageBatch` calls that completed successfully, in send order. -/
structure IngestOutcome where
  result : Except String Response
  sent : List (List SQSEntry)
  deriving DecidableEq

/-- A hexadecimal digit's value, in either case, as the `%HH` escapes of
`decodeURIComponent` accept. -/
def hexDigitVal (c : Char) : Option Nat :=
  if '0' ≤ c ∧ c ≤ '9' then some (c.toNat - 48)
  else if 'A' ≤ c ∧ c ≤ 'F' then some (c.toNat - 55)
  else if 'a' ≤ c ∧ c ≤ 'f' then some (c.toNat - 87)
  else none

/-- A `%HH` continuation byte of a multi-byte UTF-8 sequence: its value
when the two hex digits are valid and the byte lies in `80..BF`. -/
def contByte (c1 c2 : Char) : Option Nat :=
  match hexDigitVal c1, hexDigitVal c2 with
  | some h1, some h2 =>
    let b := 16 * h1 + h2
    if 128 ≤ b ∧ b < 192 then some b else none
  | _, _ => none

/-- ECMA-262 `decodeURIComponent` on the character list: characters other
than `%` pass through; each `%` must begin `%HH` percent escapes whose
bytes form shortest-form, non-surrogate UTF-8 (one byte `00..7F`; leads
`C2..DF`, `E0..EF`, `F0..F4` with their continuation ranges, rejecting the
overlong `E0 80..9F` / `F0 80..8F` and surrogate `ED A0..BF` / out-of-range
`F4 90..BF` starts). Any other shape throws `URIError: URI malformed`. -/
def decodeURIComponentChars : List Char → Except String (List Char)
  | [] => .ok []
  | '%' :: rest =>
    match rest with
    | c1 :: c2 :: rest2 =>
      match hexDigitVal c1, hexDigitVal c2 with
      | some h1, some h2 =>
        let b := 16 * h1 + h2
        if b < 128 then
          match decodeURIComponentChars rest2 with
          | .ok ds => .ok (Char.ofNat b :: ds)
          | .error e => .error e
        else if 194 ≤ b ∧ b ≤ 223 then
          match rest2 with
          | '%' :: d1 :: d2 :: rest3 =>
            match contByte d1 d2 with
            | some b2 =>
              match decodeURIComponentChars rest3 with
              | .ok ds => .ok (Char.ofNat ((b - 192) * 64 + (b2 - 128)) :: ds)
              | .error e => .error e
            | none => .error "URIError: URI malformed"
          | _ => .error "URIError: URI malformed"
        else if 224 ≤ b ∧ b ≤ 239 then
          match rest2 with
          | '%' :: d1 :: d2 :: '%' :: e1 :: e2 :: rest4 =>
            match contByte d1 d2, contByte e1 e2 with
            | some b2, some b3 =>
              if (b = 224 ∧ b2 < 160) ∨ (b = 237 ∧ 160 ≤ b2) then
                .error "URIError: URI malformed"
              else
                match decodeURIComponentChars rest4 with
                | .ok ds =>
                  .ok (Char.ofNat ((b - 224) * 4096 + (b2 - 128) * 64 + (b3 - 128)) :: ds)
                | .error e => .error e
            | _, _ => .error "URIError: URI malformed"
          | _ => .error "URIError: URI malformed"
        else if 240 ≤ b ∧ b ≤ 244 then
          match rest2 with
          | '%' :: d1 :: d2 :: '%' :: e1 :: e2 :: '%' :: f1 :: f2 :: rest5 =>
            match contByte d1 d2, contByte e1 e2, contByte f1 f2 with
            | some b2, some b3, some b4 =>
              if (b = 240 ∧ b2 < 144) ∨ (b = 244 ∧ 144 ≤ b2) then
                .error "URIError: URI malformed"
              else
                match decodeURIComponentChars rest5 with
                | .ok ds =>
                  .ok (Char.ofNat ((b - 240) * 262144 + (b2 - 128) * 4096
                    + (b3 - 128) * 64 + (b4 - 128)) :: ds)
                | .error e => .error e
            | _, _, _ => .error "URIError: URI malformed"
          | _ => .error "URIError: URI malformed"
        else .error "URIError: URI malformed"
      | _, _ => .error "URIError: URI malformed"
    | _ => .error "URIError: URI malformed"
  | c :: cs =>
    match decodeURIComponentChars cs with
    | .ok ds => .ok (c :: ds)
    | .error e => .error e

/-- JavaScript `decodeURIComponent(s)` (line 63): the decoded string, or a
thrown `URIError` for a malformed escape. -/
def decodeURIComponent (s : String) : Except String String :=
  match decodeURIComponentChars s.data with
  | .ok l => .ok ⟨l⟩
  | .error e => .error e

/-- The ingestion handler (lines 58–109). `fetchResult` is the settled
outcome of the S3 `GetObject` plus `streamToString` (the file's text on
success, requested with the decoded key); `sendFailsAt` marks the first
batch-send call (0-based) the SQS client rejects, if any; `now` is the
clock. Both `event.Records[0].s3` (line 62) and
`decodeURIComponent(event.Records[0].s3.object.key)` (line 63) run before
the `try` block, so an event with no records throws a `TypeError` and a
malformed object key throws a `URIError`, neither returning a response;
every failure inside the `try` is caught and mapped to a 500 response. -/
def ingestionHandler (event : S3Event) (fetchResult : Except String String)
    (sendFailsAt : Option Nat) (now : Nat) : IngestOutcome :=
  match event.Records with
  | [] => ⟨.error "TypeError: Cannot read properties of undefined", []⟩
  | record :: _ =>
    match decodeURIComponent record.objectKey with
    | .error e => ⟨.error e, []⟩
    | .ok _objectKey =>
    let env := deriveEnv record.bucketName
    match fetchResult with
    | .error _ => ⟨.ok ⟨500, "Error processing file."⟩, []⟩
    | .ok csvData =>
      let rows := parseCSV csvData
      let batches := (chunkLoop rows []).map fun c => sendChunkToSQS c env now
      match sendFailsAt with
      | some k =>
        if k < batches.length then ⟨.ok ⟨500, "Error processing file."⟩, batches.take k⟩
        else ⟨.ok ⟨200, "File processed and sent to SQS successfully."⟩, batches⟩
      | none => ⟨.ok ⟨200, "File processed and sent to SQS successfully."⟩, batches⟩

/-- A resolved database configuration (line 163). -/
structure DbConfig where
  host : String
  user : String
  password : String
  database : String
  deriving DecidableEq

/-- The four SSM parameter fetches `getDatabaseConfig` starts on a cache
miss (lines 156–161), in source order, each with `WithDecryption: true`. -/
def paramRequests (env : String) : List (String × Bool) :=
  [("/" ++ env ++ "/MYSQL_HOST", true),
   ("/" ++ env ++ "/MYSQL_USER", true),
   ("/" ++ env ++ "/MYSQL_PASSWORD", true),
   ("/" ++ env ++ "/MYSQL_DATABASE", true)]

/-- The outcome of one `getDatabaseConfig` call: the settled value, the
contents of `dbConfigCache` afterwards, and the parameter-store requests
issued (under `Promise.all` all four start even if one rejects). -/
structure ConfigOutcome where
  result : Except String DbConfig
  cache : List (String × DbConfig)
  requests : List (String × Bool)
  deriving DecidableEq

/-- `getDatabaseConfig(env)` (lines 151–166) over an explicit parameter
store `store` (name and `WithDecryption` flag to settled value) and the
current contents of the process-wide `dbConfigCache`. A hit returns the
cached config with no requests; a miss issues all four requests and writes
the cache only after all four resolve, so a rejection propagates (with the
first rejection in source order here) and leaves the cache unchanged. -/
def getDatabaseConfig (store : String → Bool → Except String String)
    (cache : List (String × DbConfig)) (env : String) : ConfigOutcome :=
  match cache.lookup env with
  | some config => ⟨.ok config, cache, []⟩
  | none =>
    match store ("/" ++ env ++ "/MYSQL_HOST") true,
          store ("/" ++ env ++ "/MYSQL_USER") true,
          store ("/" ++ env ++ "/MYSQL_PASSWORD") true,
          store ("/" ++ env ++ "/MYSQL_DATABASE") true with
    | .ok host, .ok user, .ok password, .ok database =>
      ⟨.ok ⟨host, user, password, database⟩,
        (env, (⟨host, user, password, database⟩ : DbConfig)) :: cache, paramRequests env⟩
    | .error e, _, _, _ => ⟨.error e, cache, paramRequests env⟩
    | _, .error e, _, _ => ⟨.error e, cache, paramRequests env⟩
    | _, _, .error e, _ => ⟨.error e, cache, paramRequests env⟩
    | _, _, _, .error e => ⟨.error e, cache, paramRequests env⟩

/-- Which of `processRecord`'s effectful steps succeed in a given run
(lines 173–201): acquiring a pooled connection, `beginTransaction`, the
upsert `execute`, the SQS `DeleteMessage`, and `commit`. -/
structure StepOutcomes where
  acquireOk : Bool
  beginOk : Bool
  upsertOk : Bool
  deleteOk : Bool
  commitOk : Bool
  deriving DecidableEq

/-- The observable effects of one `processRecord` run. `thrown` records
whether the call rejects (the `catch` block rethrows). -/
structure RecordEffects where
  rolledBack : Bool
  messageDeleted : Bool
  committed : Bool
  released : Bool
  thrown : Bool
  deriving DecidableEq

/-- `processRecord` (lines 173–201): `beginTransaction`, the upsert, the
SQS `DeleteMessage`, then `commit` inside `try`; `rollback` and a rethrow
in `catch`; `release` in `finally`. `pool.getConnection()` is awaited
before the `try`, so a failure there throws with nothing begun, rolled
back or released. Note that the SQS delete precedes the commit. -/
def processRecord (o : StepOutcomes) : RecordEffects :=
  if !o.acquireOk then ⟨false, false, false, false, true⟩
  else if !o.beginOk then ⟨true, false, false, true, true⟩
  else if !o.upsertOk then ⟨true, false, false, true, true⟩
  else if !o.deleteOk then ⟨true, false, false, true, true⟩
  else if !o.commitOk then ⟨true, true, false, true, true⟩
  else ⟨false, true, true, true, false⟩

/-- The consumer handler (lines 206–238): it validates that the event has
at least one record, parses the first record's body for `env`, resolves the
database config, opens a pool, processes the records in windows of ten, and
returns 200 on full success; the `try`/`catch` wraps the whole body, so
every failure is mapped to a 500 response (the `finally` pool teardown is
modelled as non-throwing). `records` carries each message's per-step
outcomes, `parseOk` whether `JSON.parse` of the first body succeeds, and
`configResult` the settled value of `getDatabaseConfig`. -/
def consumerHandler (records : List StepOutcomes) (parseOk : Bool)
    (configResult : Except String DbConfig) : Response :=
  if records.isEmpty then ⟨500, "Error processing messages."⟩
  else if !parseOk then ⟨500, "Error processing messages."⟩
  else
    match configResult with
    | .error _ => ⟨500, "Error processing messages."⟩
    | .ok _ =>
      if records.all fun o => !(processRecord o).thrown then
        ⟨200, "Messages processed successfully."⟩
      else ⟨500, "Error processing messages."⟩

/-- One row of the `users` table (lines 182–184). -/
structure UserRow where
  id : String
  name : String
  createdAt : String
  updatedAt : String
  deriving DecidableEq

/-- Modelled from the spec: the MySQL semantics of the statement at lines
181–186, `INSERT INTO users (id, name, createdAt, updatedAt) VALUES
(UUID(), ?, ?, ?) ON DUPLICATE KEY UPDATE updatedAt = VALUES(updatedAt)`.
The `users` table's schema is not part of this repository's source; since
the statement inserts a fresh `UUID()` primary key, spec §8's "for a fixed
unique key" requires a unique key on an inserted column, modelled here as a
unique key on `name`. On a key conflict only `updatedAt` is written;
otherwise a fresh row is appended with `createdAt = updatedAt = timestamp`
and `freshId` standing for the generated `UUID()`. -/
def upsertUser (table : List UserRow) (freshId name timestamp : String) : List UserRow :=
  if table.any fun r => r.name = name then
    table.map fun r => if r.name = name then { r with updatedAt := timestamp } else r
  else
    table ++ [⟨freshId, name, timestamp, timestamp⟩]

/-! ### Properties of the chunking loop -/

theorem chunkLoop_flatten (rows : List Row) : ∀ buf : List Row, buf.length < CHUNK_SIZE →
    (chunkLoop rows buf).flatten = buf ++ rows := by
  induction rows with
  | nil =>
    intro buf h
    cases buf <;> simp [chunkLoop]
  | cons row rest ih =>
    intro buf h
    simp only [chunkLoop]
    by_cases h2 : (buf ++ [row]).length = CHUNK_SIZE
    · rw [if_pos h2]
      rw [List.flatten_cons, ih [] (by decide)]
      simp
    · rw [if_neg h2]
      rw [ih (buf ++ [row]) (by simp only [List.length_append, List.length_cons,
        List.length_nil, CHUNK_SIZE] at h2 h ⊢; omega)]
      simp

theorem chunkLoop_length (rows : List Row) : ∀ buf : List Row, buf.length < CHUNK_SIZE →
    (chunkLoop rows buf).length = (buf.length + rows.length + (CHUNK_SIZE - 1)) / CHUNK_SIZE := by
  induction rows with
  | nil =>
    intro buf h
    cases buf with
    | nil => simp [chunkLoop, CHUNK_SIZE]
    | cons a l =>
      simp only [chunkLoop, List.isEmpty_cons, CHUNK_SIZE, List.length_cons,
        List.length_nil] at h ⊢
      simp only [if_neg (by simp : ¬ (false = true)), List.length_singleton]
      omega
  | cons row rest ih =>
    intro buf h
    simp only [chunkLoop]
    by_cases h2 : (buf ++ [row]).length = CHUNK_SIZE
    · rw [if_pos h2]
      simp only [List.length_cons]
      rw [ih [] (by decide)]
      simp only [List.length_append, List.length_cons, List.length_nil, CHUNK_SIZE] at h2 ⊢
      omega
    · rw [if_neg h2]
      rw [ih (buf ++ [row]) (by simp only [List.length_append, List.length_cons,
        List.length_nil, CHUNK_SIZE] at h2 h ⊢; omega)]
      simp only [List.length_append, List.length_cons, List.length_nil, CHUNK_SIZE]
      omega

theorem chunkLoop_sizes (rows : List Row) : ∀ buf : List Row, buf.length < CHUNK_SIZE →
    ∀ c ∈ chunkLoop rows buf, c.length ≤ CHUNK_SIZE := by
  induction rows with
  | nil =>
    intro buf h c hc
    cases buf with
    | nil => simp [chunkLoop] at hc
    | cons a l =>
      simp only [chunkLoop, List.isEmpty_cons, if_neg (by simp : ¬ (false = true)),
        List.mem_singleton] at hc
      subst hc
      omega
  | cons row rest ih =>
    intro buf h c hc
    simp only [chunkLoop] at hc
    by_cases h2 : (buf ++ [row]).length = CHUNK_SIZE
    · rw [if_pos h2] at hc
      rcases List.mem_cons.mp hc with hc | hc
      · subst hc; omega
      · exact ih [] (by decide) c hc
    · rw [if_neg h2] at hc
      refine ih (buf ++ [row]) ?_ c hc
      simp only [List.length_append, List.length_cons, List.length_nil, CHUNK_SIZE] at h2 h ⊢
      omega

/-! ### Properties of `sendChunkToSQS` -/

theorem length_sendChunkToSQS (chunk : List Row) (envArg : Option String) (now : Nat) :
    (sendChunkToSQS chunk envArg now).length = chunk.length := by
  simp [sendChunkToSQS]

theorem map_messageBody_sendChunkToSQS (chunk : List Row) (envArg : Option String) (now : Nat) :
    (sendChunkToSQS chunk envArg now).map (fun e => e.MessageBody)
      = chunk.map fun row => messageBody row (envArg.getD "dev") := by
  unfold sendChunkToSQS
  suffices h : ∀ g : Nat → Row → SQSEntry,
      (∀ i r, (g i r).MessageBody = messageBody r (envArg.getD "dev")) →
      (chunk.mapIdx g).map (fun e => e.MessageBody)
        = chunk.map fun row => messageBody row (envArg.getD "dev") by
    exact h _ fun i r => rfl
  induction chunk with
  | nil => intro g hg; simp
  | cons a l ih =>
    intro g hg
    rw [List.mapIdx_cons, List.map_cons, List.map_cons, hg 0 a,
      ih (fun i r => g (i + 1) r) (fun i r => hg (i + 1) r)]

/-- On a successful run, the concatenated message bodies of all sent
batches are the parsed rows' envelopes, with the derived `env` defaulted to
`"dev"` by `sendChunkToSQS` when it is `undefined`. -/
theorem ingestion_sent_flatten_bodies (record : S3EventRecord) (rest : List S3EventRecord)
    (csvData : String) (now : Nat) (decoded : String)
    (hkey : decodeURIComponent record.objectKey = .ok decoded) :
    ((ingestionHandler ⟨record :: rest⟩ (.ok csvData) none now).sent.map fun b =>
        b.map fun e => e.MessageBody).flatten
      = (parseCSV csvData).map fun row =>
          messageBody row ((deriveEnv record.bucketName).getD "dev") := by
  simp only [ingestionHandler, hkey]
  rw [List.map_map]
  simp only [Function.comp_def]
  rw [List.map_congr_left (fun c _ =>
    map_messageBody_sendChunkToSQS c (deriveEnv record.bucketName) now)]
  rw [← List.map_flatten, chunkLoop_flatten (parseCSV csvData) [] (by decide)]
  simp

/-- When the key decodes and every batch send succeeds, the ingestion
handler returns 200. -/
theorem ingestion_ok_result (record : S3EventRecord) (rest : List S3EventRecord)
    (csvData : String) (now : Nat) (decoded : String)
    (hkey : decodeURIComponent record.objectKey = .ok decoded) :
    (ingestionHandler ⟨record :: rest⟩ (.ok csvData) none now).result
      = .ok ⟨200, "File processed and sent to SQS successfully."⟩ := by
  simp only [ingestionHandler, hkey]

/-- Claim C1: on a successful run (the object key decodes — entailed by
the S3 fetch having settled — and every send succeeds) over a parse with
`R` data rows, the ingestion handler issues exactly `⌈R / 10⌉` batch-send
calls, each carrying at most 10 entries, and the concatenation of the row
data (message bodies) of all sent entries, in send order, equals the
parsed rows in parse order. -/
theorem C1_ingestion_batching (event : S3Event) (record : S3EventRecord)
    (rest : List S3EventRecord) (hrec : event.Records = record :: rest)
    (decoded : String) (hkey : decodeURIComponent record.objectKey = .ok decoded)
    (csvData : String) (now : Nat) :
    (ingestionHandler event (.ok csvData) none now).sent.length
        = ((parseCSV csvData).length + (CHUNK_SIZE - 1)) / CHUNK_SIZE
    ∧ (∀ b ∈ (ingestionHandler event (.ok csvData) none now).sent, b.length ≤ CHUNK_SIZE)
    ∧ ((ingestionHandler event (.ok csvData) none now).sent.map fun b =>
          b.map fun e => e.MessageBody).flatten
        = (parseCSV csvData).map fun row =>
            messageBody row ((deriveEnv record.bucketName).getD "dev") := by
  obtain ⟨recs⟩ := event
  change recs = record :: rest at hrec
  subst hrec
  refine ⟨?_, ?_, ingestion_sent_flatten_bodies record rest csvData now decoded hkey⟩
  · simp only [ingestionHandler, hkey]
    rw [List.length_map, chunkLoop_length (parseCSV csvData) [] (by decide)]
    simp
  · intro b hb
    simp only [ingestionHandler, hkey] at hb
    rcases List.mem_map.mp hb with ⟨c, hc, hb⟩
    subst hb
    rw [length_sendChunkToSQS]
    exact chunkLoop_sizes (parseCSV csvData) [] (by decide) c hc

theorem C1_ingestion_batching_witness :
    (ingestionHandler ⟨[⟨"myapp-dev-data", "batch1.csv"⟩]⟩
        (.ok "id,name\n1,a\n2,b") none 3).sent.length
        = ((parseCSV "id,name\n1,a\n2,b").length + (CHUNK_SIZE - 1)) / CHUNK_SIZE
    ∧ (∀ b ∈ (ingestionHandler ⟨[⟨"myapp-dev-data", "batch1.csv"⟩]⟩
        (.ok "id,name\n1,a\n2,b") none 3).sent, b.length ≤ CHUNK_SIZE)
    ∧ ((ingestionHandler ⟨[⟨"myapp-dev-data", "batch1.csv"⟩]⟩
        (.ok "id,name\n1,a\n2,b") none 3).sent.map fun b =>
          b.map fun e => e.MessageBody).flatten
        = (parseCSV "id,name\n1,a\n2,b").map fun row =>
            messageBody row ((deriveEnv "myapp-dev-data").getD "dev") :=
  C1_ingestion_batching ⟨[⟨"myapp-dev-data", "batch1.csv"⟩]⟩
    ⟨"myapp-dev-data", "batch1.csv"⟩ [] rfl "batch1.csv" (by decide) "id,name\n1,a\n2,b" 3

/-- Claim C7: an input file that is empty or contains only a header line
(every line after the first is empty) parses to zero rows, so the ingestion
handler sends zero queue batches and returns a 200 response. -/
theorem C7_empty_or_header_only (event : S3Event) (record : S3EventRecord)
    (rest : List S3EventRecord) (hrec : event.Records = record :: rest)
    (decoded : String) (hkey : decodeURIComponent record.objectKey = .ok decoded)
    (csvData : String) (sendFailsAt : Option Nat) (now : Nat)
    (hcontent : ∀ line ∈ (splitOnChar '\n' csvData).tail, line = "") :
    ingestionHandler event (.ok csvData) sendFailsAt now
      = ⟨.ok ⟨200, "File processed and sent to SQS successfully."⟩, []⟩ := by
  obtain ⟨recs⟩ := event
  change recs = record :: rest at hrec
  subst hrec
  have hrows : parseCSV csvData = [] := by
    unfold parseCSV
    cases hs : splitOnChar '\n' csvData with
    | nil => rfl
    | cons header dataLines =>
      have hfil : dataLines.filter (fun line => line ≠ "") = [] := by
        rw [List.filter_eq_nil_iff]
        intro a ha
        have h2 := hcontent a (by rw [hs]; exact ha)
        simp [h2]
      show ((dataLines.filter fun line => line ≠ "").map fun line =>
        (splitOnChar ',' header).zip (splitOnChar ',' line)) = []
      rw [hfil]
      rfl
  cases sendFailsAt with
  | none => simp [ingestionHandler, hkey, hrows, chunkLoop]
  | some k => simp [ingestionHandler, hkey, hrows, chunkLoop]

theorem C7_empty_or_header_only_witness :
    ingestionHandler ⟨[⟨"myapp-dev-data", "empty.csv"⟩]⟩ (.ok "id,name") (some 0) 3
      = ⟨.ok ⟨200, "File processed and sent to SQS successfully."⟩, []⟩ :=
  C7_empty_or_header_only ⟨[⟨"myapp-dev-data", "empty.csv"⟩]⟩
    ⟨"myapp-dev-data", "empty.csv"⟩ [] rfl "empty.csv" (by decide) "id,name" (some 0) 3
    (by decide)

/-! ### Injectivity of decimal rendering, for entry-id uniqueness -/

/-- The number a list of decimal digit characters denotes; left inverse of
`Nat.toDigitsCore 10`. -/
def digitsVal (l : List Char) : Nat :=
  l.foldl (fun acc c => 10 * acc + (c.toNat - 48)) 0

theorem digitsVal_append_singleton (l : List Char) (c : Char) :
    digitsVal (l ++ [c]) = 10 * digitsVal l + (c.toNat - 48) := by
  simp [digitsVal, List.foldl_append]

theorem toDigitsCore_eq_append (f : Nat) : ∀ (n : Nat) (ds : List Char),
    Nat.toDigitsCore 10 f n ds = Nat.toDigitsCore 10 f n [] ++ ds := by
  induction f with
  | zero => intro n ds; simp [Nat.toDigitsCore]
  | succ f ih =>
    intro n ds
    simp only [Nat.toDigitsCore]
    by_cases h : n / 10 = 0
    · simp [h]
    · rw [if_neg h, if_neg h, ih (n / 10) (Nat.digitChar (n % 10) :: ds),
        ih (n / 10) [Nat.digitChar (n % 10)]]
      simp

theorem digitChar_toNat {r : Nat} (h : r < 10) : (Nat.digitChar r).toNat = 48 + r := by
  interval_cases r <;> rfl

theorem toDigitsCore_succ (f n : Nat) (ds : List Char) :
    Nat.toDigitsCore 10 (f + 1) n ds =
      if n / 10 = 0 then Nat.digitChar (n % 10) :: ds
      else Nat.toDigitsCore 10 f (n / 10) (Nat.digitChar (n % 10) :: ds) := rfl

theorem digitsVal_toDigitsCore (f : Nat) : ∀ n : Nat, n ≤ f →
    digitsVal (Nat.toDigitsCore 10 (f + 1) n []) = n := by
  induction f with
  | zero =>
    intro n hn
    have h0 : n = 0 := by omega
    subst h0
    decide
  | succ f ih =>
    intro n hn
    rw [toDigitsCore_succ]
    by_cases h : n / 10 = 0
    · rw [if_pos h]
      have hlt : n % 10 < 10 := by omega
      simp only [digitsVal, List.foldl_cons, List.foldl_nil, digitChar_toNat hlt]
      omega
    · rw [if_neg h, toDigitsCore_eq_append, digitsVal_append_singleton,
        digitChar_toNat (by omega : n % 10 < 10),
        ih (n / 10) (by
          have := Nat.div_lt_self (by omega : 0 < n) (by omega : 1 < 10)
          omega)]
      omega

theorem repr_injective : Function.Injective Nat.repr := by
  intro m n h
  have hm := digitsVal_toDigitsCore m m le_rfl
  have hn := digitsVal_toDigitsCore n n le_rfl
  have hdata : Nat.toDigitsCore 10 (m + 1) m [] = Nat.toDigitsCore 10 (n + 1) n [] := by
    have h2 := congrArg String.data h
    simpa [Nat.repr, Nat.toDigits, List.asString] using h2
  rw [← hm, ← hn, hdata]

/-- Two entry ids `row-${index}-${Date.now()}` built with the same clock
value but different indices differ. -/
theorem rowId_injective {i j now : Nat}
    (h : "row-" ++ Nat.repr i ++ "-" ++ Nat.repr now
       = "row-" ++ Nat.repr j ++ "-" ++ Nat.repr now) : i = j := by
  apply repr_injective
  apply String.ext
  have hd := congrArg String.data h
  simp only [String.data_append, List.append_assoc] at hd
  have h1 := List.append_cancel_left hd
  exact List.append_cancel_right h1

theorem mapIdx_id_shift (now : Nat) : ∀ (l : List Row) (g : Nat → Row → SQSEntry) (off : Nat),
    (∀ i r, (g i r).Id = "row-" ++ Nat.repr (i + off) ++ "-" ++ Nat.repr now) →
    (l.mapIdx g).map (fun e => e.Id)
      = (List.range l.length).map fun i => "row-" ++ Nat.repr (i + off) ++ "-" ++ Nat.repr now := by
  intro l
  induction l with
  | nil => intro g off hg; simp
  | cons a l ih =>
    intro g off hg
    rw [List.mapIdx_cons, List.map_cons, hg 0 a]
    have hg2 : ∀ i r, (g (i + 1) r).Id = "row-" ++ Nat.repr (i + (off + 1)) ++ "-" ++ Nat.repr now := by
      intro i r
      rw [hg (i + 1) r]
      have e : i + 1 + off = i + (off + 1) := by omega
      rw [e]
    rw [ih (fun i r => g (i + 1) r) (off + 1) hg2]
    rw [List.length_cons, List.range_succ_eq_map, List.map_cons, List.map_map]
    congr 1
    apply List.map_congr_left
    intro i _
    simp only [Function.comp_apply]
    have e : i + 1 + off = i + (off + 1) := by omega
    rw [e]

/-- The entry ids of one `sendChunkToSQS` call, in order. -/
theorem map_id_sendChunkToSQS (chunk : List Row) (envArg : Option String) (now : Nat) :
    (sendChunkToSQS chunk envArg now).map (fun e => e.Id)
      = (List.range chunk.length).map fun i => "row-" ++ Nat.repr i ++ "-" ++ Nat.repr now := by
  unfold sendChunkToSQS
  refine Eq.trans (mapIdx_id_shift now chunk _ 0 ?_) ?_
  · intro i r
    rw [Nat.add_zero]
  · simp only [Nat.add_zero]

/-- Claim C6: every entry of a `sendChunkToSQS` call carries as body the
JSON serialization of the envelope `{ data: row, env }` (with `env` the
function's string parameter, `"dev"` when the caller passed `undefined`),
the constant FIFO group id `CSVChunkGroup` shared by all entries, an id
`row-${index}-${now}` unique within the batch-send call, and a
deduplication id `dedup-${row.id || index}-${now}` derived from the row's
`id` value (its position in the chunk when `id` is absent or empty) plus
the clock value. -/
theorem C6_message_format (chunk : List Row) (envArg : Option String) (now : Nat) :
    (sendChunkToSQS chunk envArg now).length = chunk.length
    ∧ (∀ i (hi : i < chunk.length) (hi2 : i < (sendChunkToSQS chunk envArg now).length),
        (sendChunkToSQS chunk envArg now).get ⟨i, hi2⟩ =
          { Id := "row-" ++ Nat.repr i ++ "-" ++ Nat.repr now
            MessageBody := messageBody (chunk.get ⟨i, hi⟩) (envArg.getD "dev")
            MessageGroupId := "CSVChunkGroup"
            MessageDeduplicationId :=
              "dedup-" ++ idOrIndex (chunk.get ⟨i, hi⟩) i ++ "-" ++ Nat.repr now })
    ∧ ((sendChunkToSQS chunk envArg now).map fun e => e.Id).Nodup := by
  refine ⟨length_sendChunkToSQS chunk envArg now, ?_, ?_⟩
  · intro i hi hi2
    simp [sendChunkToSQS, List.get_eq_getElem, List.getElem_mapIdx]
  · rw [map_id_sendChunkToSQS]
    exact List.Nodup.map (fun a b hab => rowId_injective hab) (List.nodup_range _)

theorem C6_message_format_witness :
    (sendChunkToSQS [[("id", "7"), ("name", "a")], [("id", ""), ("name", "b")]]
        (some "prod") 5).length = 2
    ∧ (sendChunkToSQS [[("id", "7"), ("name", "a")], [("id", ""), ("name", "b")]]
        (some "prod") 5).get ⟨1, by decide⟩ =
        { Id := "row-" ++ Nat.repr 1 ++ "-" ++ Nat.repr 5
          MessageBody := messageBody [("id", ""), ("name", "b")] ((some "prod").getD "dev")
          MessageGroupId := "CSVChunkGroup"
          MessageDeduplicationId := "dedup-" ++ idOrIndex [("id", ""), ("name", "b")] 1
            ++ "-" ++ Nat.repr 5 }
    ∧ ((sendChunkToSQS [[("id", "7"), ("name", "a")], [("id", ""), ("name", "b")]]
        (some "prod") 5).map fun e => e.Id).Nodup :=
  ⟨(C6_message_format [[("id", "7"), ("name", "a")], [("id", ""), ("name", "b")]]
      (some "prod") 5).1,
   (C6_message_format [[("id", "7"), ("name", "a")], [("id", ""), ("name", "b")]]
      (some "prod") 5).2.1 1 (by decide) (by decide),
   (C6_message_format [[("id", "7"), ("name", "a")], [("id", ""), ("name", "b")]]
      (some "prod") 5).2.2⟩

/-- Counterexample to claim C8 as stated for *every* bucket name: for the
bucket `plainbucket` the derived env is `undefined`, yet the sent message
does not carry that derived value — `sendChunkToSQS`'s default parameter
substitutes `"dev"`, so the body differs from the serialization of the
envelope holding the derived env. -/
theorem C8_counterexample :
    deriveEnv "plainbucket" = none
    ∧ ((ingestionHandler ⟨[⟨"plainbucket", "g.csv"⟩]⟩ (.ok "id,name\n2,b") none 1).sent.map
          fun b => b.map fun e => e.MessageBody).flatten
        = [messageBody [("id", "2"), ("name", "b")] "dev"]
    ∧ messageBody [("id", "2"), ("name", "b")] "dev"
        ≠ claimedBody [("id", "2"), ("name", "b")] (deriveEnv "plainbucket") := by
  refine ⟨rfl, by decide, by decide⟩

/-- Claim C8 (amended): for every bucket name with at least two
`-`-separated tokens, the ingestion handler derives `env` as the second
token (e.g. bucket `app-dev-uploads` yields `env = "dev"`), and that value
is carried in the envelope of every message sent for the upload. -/
theorem C8_env_derivation (event : S3Event) (record : S3EventRecord)
    (rest : List S3EventRecord) (hrec : event.Records = record :: rest)
    (decoded : String) (hkey : decodeURIComponent record.objectKey = .ok decoded)
    (htok : 1 < (splitOnChar '-' record.bucketName).length)
    (csvData : String) (now : Nat) :
    ∃ tok, deriveEnv record.bucketName = some tok
      ∧ (splitOnChar '-' record.bucketName).get ⟨1, htok⟩ = tok
      ∧ ((ingestionHandler event (.ok csvData) none now).sent.map fun b =>
            b.map fun e => e.MessageBody).flatten
          = (parseCSV csvData).map fun row => claimedBody row (some tok) := by
  obtain ⟨recs⟩ := event
  change recs = record :: rest at hrec
  subst hrec
  have henv : deriveEnv record.bucketName
      = some ((splitOnChar '-' record.bucketName).get ⟨1, htok⟩) := by
    simp [deriveEnv, List.getElem?_eq_getElem htok]
  refine ⟨(splitOnChar '-' record.bucketName).get ⟨1, htok⟩, henv, rfl, ?_⟩
  rw [ingestion_sent_flatten_bodies record rest csvData now decoded hkey, henv]
  rfl

theorem C8_env_derivation_witness :
    ∃ tok, deriveEnv "app-dev-uploads" = some tok
      ∧ (splitOnChar '-' "app-dev-uploads").get ⟨1, by decide⟩ = tok
      ∧ ((ingestionHandler ⟨[⟨"app-dev-uploads", "u.csv"⟩]⟩
            (.ok "id,name\n3,c") none 2).sent.map fun b =>
            b.map fun e => e.MessageBody).flatten
          = (parseCSV "id,name\n3,c").map fun row => claimedBody row (some tok) :=
  C8_env_derivation ⟨[⟨"app-dev-uploads", "u.csv"⟩]⟩ ⟨"app-dev-uploads", "u.csv"⟩ []
    rfl "u.csv" (by decide) (by decide) "id,name\n3,c" 2

/-- Counterexample to claim C10: for the tokenless bucket `nodash` the
derived env is indeed `undefined`, but the serialized body does **not**
omit the `env` field — the JavaScript default parameter `env = "dev"` of
`sendChunkToSQS` replaces the `undefined` argument, so every message
carries `"env":"dev"`. -/
theorem C10_counterexample :
    deriveEnv "nodash" = none
    ∧ ((ingestionHandler ⟨[⟨"nodash", "f.csv"⟩]⟩ (.ok "id,name\n1,a") none 0).sent.map
          fun b => b.map fun e => e.MessageBody).flatten
        = [messageBody [("id", "1"), ("name", "a")] "dev"]
    ∧ messageBody [("id", "1"), ("name", "a")] "dev"
        ≠ claimedBody [("id", "1"), ("name", "a")] none := by
  refine ⟨rfl, by decide, by decide⟩

/-- Claim C10 (amended): for every bucket name with fewer than two
`-`-separated tokens the derived env is `undefined`, but the env field is
not omitted from the sent bodies: the default parameter of
`sendChunkToSQS` replaces it with `"dev"`, and the handler still returns
200 when all sends succeed. -/
theorem C10_missing_env_default (event : S3Event) (record : S3EventRecord)
    (rest : List S3EventRecord) (hrec : event.Records = record :: rest)
    (decoded : String) (hkey : decodeURIComponent record.objectKey = .ok decoded)
    (htok : (splitOnChar '-' record.bucketName).length < 2)
    (csvData : String) (now : Nat) :
    deriveEnv record.bucketName = none
    ∧ ((ingestionHandler event (.ok csvData) none now).sent.map fun b =>
          b.map fun e => e.MessageBody).flatten
        = ((parseCSV csvData).map fun row => messageBody row "dev")
    ∧ (ingestionHandler event (.ok csvData) none now).result
        = .ok ⟨200, "File processed and sent to SQS successfully."⟩ := by
  obtain ⟨recs⟩ := event
  change recs = record :: rest at hrec
  subst hrec
  have henv : deriveEnv record.bucketName = none := by
    simp only [deriveEnv, List.getElem?_eq_none_iff]
    omega
  refine ⟨henv, ?_, ingestion_ok_result record rest csvData now decoded hkey⟩
  rw [ingestion_sent_flatten_bodies record rest csvData now decoded hkey, henv]
  rfl

theorem C10_missing_env_default_witness :
    deriveEnv "singletoken" = none
    ∧ ((ingestionHandler ⟨[⟨"singletoken", "v.csv"⟩]⟩ (.ok "id,name\n4,d") none 9).sent.map
          fun b => b.map fun e => e.MessageBody).flatten
        = ((parseCSV "id,name\n4,d").map fun row => messageBody row "dev")
    ∧ (ingestionHandler ⟨[⟨"singletoken", "v.csv"⟩]⟩ (.ok "id,name\n4,d") none 9).result
        = .ok ⟨200, "File processed and sent to SQS successfully."⟩ :=
  C10_missing_env_default ⟨[⟨"singletoken", "v.csv"⟩]⟩ ⟨"singletoken", "v.csv"⟩ []
    rfl "v.csv" (by decide) (by decide) "id,name\n4,d" 9

/-- Counterexample to claim C3: an event with no records makes the
ingestion handler throw a `TypeError` (the `event.Records[0].s3` access at
line 62 happens before the `try` block), so that invocation terminates
with a propagated exception instead of a `{statusCode, body}` response. -/
theorem C3_counterexample :
    (ingestionHandler ⟨[]⟩ (.ok "") none 0).result
      = .error "TypeError: Cannot read properties of undefined"
    ∧ ¬ ∃ r : Response, (ingestionHandler ⟨[]⟩ (.ok "") none 0).result = .ok r := by
  refine ⟨rfl, ?_⟩
  rintro ⟨r, hr⟩
  simp [ingestionHandler] at hr

/-- Claim C3 (amended): for every input event with at least one record
whose object key `decodeURIComponent` accepts, the ingestion handler
returns `{statusCode, body}` with status 200 or 500, and the consumer
handler does so for every input; the ingestion contract is escaped by
throwing in exactly two pre-`try` cases — a record-less event
(`TypeError`, line 62) and a first record whose key fails to decode
(`URIError`, line 63), which propagates that very error. -/
theorem C3_response_contract :
    (∀ (event : S3Event) (record : S3EventRecord) (rest : List S3EventRecord),
      event.Records = record :: rest →
      ∀ decoded : String, decodeURIComponent record.objectKey = .ok decoded →
      ∀ (fetchResult : Except String String) (sendFailsAt : Option Nat) (now : Nat),
        ∃ r : Response, (ingestionHandler event fetchResult sendFailsAt now).result = .ok r
          ∧ (r.statusCode = 200 ∨ r.statusCode = 500))
    ∧ (∀ (event : S3Event) (record : S3EventRecord) (rest : List S3EventRecord),
      event.Records = record :: rest →
      ∀ e : String, decodeURIComponent record.objectKey = .error e →
      ∀ (fetchResult : Except String String) (sendFailsAt : Option Nat) (now : Nat),
        (ingestionHandler event fetchResult sendFailsAt now).result = .error e)
    ∧ (∀ (records : List StepOutcomes) (parseOk : Bool)
        (configResult : Except String DbConfig),
        (consumerHandler records parseOk configResult).statusCode = 200
        ∨ (consumerHandler records parseOk configResult).statusCode = 500) := by
  refine ⟨?_, ?_, ?_⟩
  · intro event record rest hrec decoded hdec fetchResult sendFailsAt now
    obtain ⟨recs⟩ := event
    change recs = record :: rest at hrec
    subst hrec
    cases fetchResult with
    | error e =>
      exact ⟨⟨500, "Error processing file."⟩, by simp [ingestionHandler, hdec], Or.inr rfl⟩
    | ok csvData =>
      cases sendFailsAt with
      | none =>
        exact ⟨⟨200, "File processed and sent to SQS successfully."⟩,
          by simp [ingestionHandler, hdec], Or.inl rfl⟩
      | some k =>
        by_cases hk : k < (chunkLoop (parseCSV csvData) []).length
        · exact ⟨⟨500, "Error processing file."⟩,
            by simp [ingestionHandler, hdec, hk], Or.inr rfl⟩
        · exact ⟨⟨200, "File processed and sent to SQS successfully."⟩,
            by simp [ingestionHandler, hdec, hk], Or.inl rfl⟩
  · intro event record rest hrec e hdec fetchResult sendFailsAt now
    obtain ⟨recs⟩ := event
    change recs = record :: rest at hrec
    subst hrec
    simp [ingestionHandler, hdec]
  · intro records parseOk configResult
    by_cases hemp : records.isEmpty = true
    · right; simp [consumerHandler, hemp]
    · cases parseOk with
      | false => right; simp [consumerHandler, hemp]
      | true =>
        cases configResult with
        | error e => right; simp [consumerHandler, hemp]
        | ok cfg =>
          by_cases hall : (records.all fun o => !(processRecord o).thrown) = true
          · left; simp [consumerHandler, hemp, hall]
          · right; simp [consumerHandler, hemp, hall]

theorem C3_response_contract_witness :
    (∃ r : Response,
      (ingestionHandler ⟨[⟨"app-dev-bucket", "k.csv"⟩]⟩ (.error "boom") none 0).result = .ok r
      ∧ (r.statusCode = 200 ∨ r.statusCode = 500))
    ∧ (ingestionHandler ⟨[⟨"app-dev-bucket", "%"⟩]⟩ (.ok "id,name") none 0).result
        = .error "URIError: URI malformed"
    ∧ ((consumerHandler [] true (.error "nope")).statusCode = 200
        ∨ (consumerHandler [] true (.error "nope")).statusCode = 500) :=
  ⟨C3_response_contract.1 ⟨[⟨"app-dev-bucket", "k.csv"⟩]⟩ ⟨"app-dev-bucket", "k.csv"⟩ []
      rfl "k.csv" (by decide) (.error "boom") none 0,
   C3_response_contract.2.1 ⟨[⟨"app-dev-bucket", "%"⟩]⟩ ⟨"app-dev-bucket", "%"⟩ []
      rfl "URIError: URI malformed" (by decide) (.ok "id,name") none 0,
   C3_response_contract.2.2 [] true (.error "nope")⟩

/-- Claim C4: on a cache miss for `env`, `getDatabaseConfig` issues exactly
the four parameter fetches `/{env}/MYSQL_HOST`, `/{env}/MYSQL_USER`,
`/{env}/MYSQL_PASSWORD`, `/{env}/MYSQL_DATABASE`, each with decryption,
and caches the resolved config; every later call for the same `env` in the
process returns the cached config with no parameter-store request at all
(for any behaviour `store2` of the store). -/
theorem C4_config_cached_once (store : String → Bool → Except String String)
    (cache : List (String × DbConfig)) (env : String)
    (hmiss : cache.lookup env = none)
    (host user password database : String)
    (hh : store ("/" ++ env ++ "/MYSQL_HOST") true = .ok host)
    (hu : store ("/" ++ env ++ "/MYSQL_USER") true = .ok user)
    (hp : store ("/" ++ env ++ "/MYSQL_PASSWORD") true = .ok password)
    (hd : store ("/" ++ env ++ "/MYSQL_DATABASE") true = .ok database) :
    getDatabaseConfig store cache env
      = ⟨.ok ⟨host, user, password, database⟩,
          (env, (⟨host, user, password, database⟩ : DbConfig)) :: cache, paramRequests env⟩
    ∧ ∀ store2 : String → Bool → Except String String,
        getDatabaseConfig store2
            ((env, (⟨host, user, password, database⟩ : DbConfig)) :: cache) env
          = ⟨.ok ⟨host, user, password, database⟩,
              (env, (⟨host, user, password, database⟩ : DbConfig)) :: cache, []⟩ := by
  constructor
  · unfold getDatabaseConfig
    rw [hmiss, hh, hu, hp, hd]
  · intro store2
    unfold getDatabaseConfig
    rw [List.lookup_cons_self]

theorem C4_config_cached_once_witness :
    getDatabaseConfig (fun name _ => .ok name) [] "dev"
      = ⟨.ok ⟨"/dev/MYSQL_HOST", "/dev/MYSQL_USER", "/dev/MYSQL_PASSWORD", "/dev/MYSQL_DATABASE"⟩,
          [("dev", (⟨"/dev/MYSQL_HOST", "/dev/MYSQL_USER", "/dev/MYSQL_PASSWORD",
            "/dev/MYSQL_DATABASE"⟩ : DbConfig))], paramRequests "dev"⟩
    ∧ ∀ store2 : String → Bool → Except String String,
        getDatabaseConfig store2
            [("dev", (⟨"/dev/MYSQL_HOST", "/dev/MYSQL_USER", "/dev/MYSQL_PASSWORD",
              "/dev/MYSQL_DATABASE"⟩ : DbConfig))] "dev"
          = ⟨.ok ⟨"/dev/MYSQL_HOST", "/dev/MYSQL_USER", "/dev/MYSQL_PASSWORD",
              "/dev/MYSQL_DATABASE"⟩,
              [("dev", (⟨"/dev/MYSQL_HOST", "/dev/MYSQL_USER", "/dev/MYSQL_PASSWORD",
                "/dev/MYSQL_DATABASE"⟩ : DbConfig))], []⟩ :=
  C4_config_cached_once (fun name _ => .ok name) [] "dev" rfl
    "/dev/MYSQL_HOST" "/dev/MYSQL_USER" "/dev/MYSQL_PASSWORD" "/dev/MYSQL_DATABASE"
    rfl rfl rfl rfl

/-- Claim C9: on a cache miss, if any of the four parameter fetches fails,
`getDatabaseConfig` propagates an error, leaves the cache unchanged (an
entry is stored only after all four parameters resolve), and has issued
the four requests; with the cache unchanged, a later call for the same
environment misses again and retries the full fetch. -/
theorem C9_config_error_no_cache (store : String → Bool → Except String String)
    (cache : List (String × DbConfig)) (env : String)
    (hmiss : cache.lookup env = none)
    (hfail : (∃ e, store ("/" ++ env ++ "/MYSQL_HOST") true = .error e)
           ∨ (∃ e, store ("/" ++ env ++ "/MYSQL_USER") true = .error e)
           ∨ (∃ e, store ("/" ++ env ++ "/MYSQL_PASSWORD") true = .error e)
           ∨ (∃ e, store ("/" ++ env ++ "/MYSQL_DATABASE") true = .error e)) :
    (∃ e, (getDatabaseConfig store cache env).result = .error e)
    ∧ (getDatabaseConfig store cache env).cache = cache
    ∧ (getDatabaseConfig store cache env).requests = paramRequests env
    ∧ ∀ store2 : String → Bool → Except String String,
        (getDatabaseConfig store2 (getDatabaseConfig store cache env).cache env).requests
          = paramRequests env := by
  have hmain : (∃ e, (getDatabaseConfig store cache env).result = .error e)
      ∧ (getDatabaseConfig store cache env).cache = cache
      ∧ (getDatabaseConfig store cache env).requests = paramRequests env := by
    unfold getDatabaseConfig
    rw [hmiss]
    cases h1 : store ("/" ++ env ++ "/MYSQL_HOST") true <;>
      cases h2 : store ("/" ++ env ++ "/MYSQL_USER") true <;>
        cases h3 : store ("/" ++ env ++ "/MYSQL_PASSWORD") true <;>
          cases h4 : store ("/" ++ env ++ "/MYSQL_DATABASE") true <;>
            simp_all
  refine ⟨hmain.1, hmain.2.1, hmain.2.2, ?_⟩
  intro store2
  rw [hmain.2.1]
  unfold getDatabaseConfig
  rw [hmiss]
  cases store2 ("/" ++ env ++ "/MYSQL_HOST") true <;>
    cases store2 ("/" ++ env ++ "/MYSQL_USER") true <;>
      cases store2 ("/" ++ env ++ "/MYSQL_PASSWORD") true <;>
        cases store2 ("/" ++ env ++ "/MYSQL_DATABASE") true <;>
          rfl

theorem C9_config_error_no_cache_witness :
    (∃ e, (getDatabaseConfig
        (fun name _ => if name = "/dev/MYSQL_PASSWORD" then .error "AccessDenied" else .ok name)
        [] "dev").result = .error e)
    ∧ (getDatabaseConfig
        (fun name _ => if name = "/dev/MYSQL_PASSWORD" then .error "AccessDenied" else .ok name)
        [] "dev").cache = []
    ∧ (getDatabaseConfig
        (fun name _ => if name = "/dev/MYSQL_PASSWORD" then .error "AccessDenied" else .ok name)
        [] "dev").requests = paramRequests "dev"
    ∧ ∀ store2 : String → Bool → Except String String,
        (getDatabaseConfig store2 (getDatabaseConfig
          (fun name _ => if name = "/dev/MYSQL_PASSWORD" then .error "AccessDenied" else .ok name)
          [] "dev").cache "dev").requests = paramRequests "dev" :=
  C9_config_error_no_cache
    (fun name _ => if name = "/dev/MYSQL_PASSWORD" then .error "AccessDenied" else .ok name)
    [] "dev" rfl (Or.inr (Or.inr (Or.inl ⟨"AccessDenied", by decide⟩)))

/-! ### Idempotence of the upsert -/

theorem updatedAt_update_name (name ts : String) (r : UserRow) :
    (if r.name = name then { r with updatedAt := ts } else r).name = r.name := by
  by_cases h : r.name = name <;> simp [h]

theorem upsertUser_of_any (t : List UserRow) (freshId name ts : String)
    (h : (t.any fun r => r.name = name) = true) :
    upsertUser t freshId name ts = t.map fun r =>
      if r.name = name then { r with updatedAt := ts } else r := by
  unfold upsertUser
  rw [if_pos h]

theorem any_name_upsertUser (table : List UserRow) (freshId name ts : String) :
    ((upsertUser table freshId name ts).any fun r => r.name = name) = true := by
  unfold upsertUser
  by_cases h : (table.any fun r => r.name = name) = true
  · rw [if_pos h]
    rcases List.any_eq_true.mp h with ⟨x, hx, hpx⟩
    refine List.any_eq_true.mpr
      ⟨if x.name = name then { x with updatedAt := ts } else x,
        List.mem_map.mpr ⟨x, hx, rfl⟩, ?_⟩
    have hn := updatedAt_update_name name ts x
    simp only [hn]
    exact hpx
  · rw [if_neg h]
    exact List.any_eq_true.mpr ⟨⟨freshId, name, ts, ts⟩, by simp, by simp⟩

theorem countP_name_map_update (t : List UserRow) (name ts : String) :
    ((t.map fun r => if r.name = name then { r with updatedAt := ts } else r).countP
      fun r => r.name = name) = t.countP fun r => r.name = name := by
  rw [List.countP_map]
  apply List.countP_congr
  intro x hx
  simp [Function.comp, updatedAt_update_name]

theorem countP_name_upsertUser (table : List UserRow) (freshId name ts : String)
    (hkey : (table.countP fun r => r.name = name) ≤ 1) :
    ((upsertUser table freshId name ts).countP fun r => r.name = name) = 1 := by
  unfold upsertUser
  by_cases h : (table.any fun r => r.name = name) = true
  · rw [if_pos h, countP_name_map_update]
    have hpos : 0 < table.countP fun r => r.name = name :=
      List.countP_pos_iff.mpr (List.any_eq_true.mp h)
    omega
  · rw [if_neg h, List.countP_append]
    have h0 : (table.countP fun r => r.name = name) = 0 := by
      rw [List.countP_eq_zero]
      intro a ha hpa
      exact h (List.any_eq_true.mpr ⟨a, ha, hpa⟩)
    rw [h0]
    simp

/-- Claim C5: over a table whose unique key (modelled from the spec as the
`name` column, since the primary key is a fresh `UUID()` per insert) holds
before the call, upserting the same logical user twice leaves exactly one
row for that key: the second upsert only rewrites `updatedAt` (it maps
every row, touching just the matching row's `updatedAt`), creates no
duplicate row, and preserves the table length. -/
theorem C5_upsert_idempotent (table : List UserRow) (fresh1 fresh2 name ts1 ts2 : String)
    (hkey : (table.countP fun r => r.name = name) ≤ 1) :
    (upsertUser (upsertUser table fresh1 name ts1) fresh2 name ts2
      = (upsertUser table fresh1 name ts1).map fun r =>
          if r.name = name then { r with updatedAt := ts2 } else r)
    ∧ ((upsertUser (upsertUser table fresh1 name ts1) fresh2 name ts2).countP
        fun r => r.name = name) = 1
    ∧ (upsertUser (upsertUser table fresh1 name ts1) fresh2 name ts2).length
        = (upsertUser table fresh1 name ts1).length := by
  have hany := any_name_upsertUser table fresh1 name ts1
  have hmap := upsertUser_of_any (upsertUser table fresh1 name ts1) fresh2 name ts2 hany
  refine ⟨hmap, ?_, by rw [hmap, List.length_map]⟩
  rw [hmap, countP_name_map_update]
  exact countP_name_upsertUser table fresh1 name ts1 hkey

theorem C5_upsert_idempotent_witness :
    (upsertUser (upsertUser [] "uuid1" "alice" "t1") "uuid2" "alice" "t2"
      = (upsertUser [] "uuid1" "alice" "t1").map fun r =>
          if r.name = "alice" then { r with updatedAt := "t2" } else r)
    ∧ ((upsertUser (upsertUser [] "uuid1" "alice" "t1") "uuid2" "alice" "t2").countP
        fun r => r.name = "alice") = 1
    ∧ (upsertUser (upsertUser [] "uuid1" "alice" "t1") "uuid2" "alice" "t2").length
        = (upsertUser [] "uuid1" "alice" "t1").length :=
  C5_upsert_idempotent [] "uuid1" "uuid2" "alice" "t1" "t2" (by decide)

end ProcessCSV
